import Mathlib

/-!
Verification of the Media-Library-Tracker data-access layer.

The definitions below are a shallow embedding of `src/models.rs`,
`src/repo.rs` and `src/sqlite_repo.rs`: the record and query model, the
integer encodings of the enumerated fields, and the SQLite-backed
repository operations (`add`, `update`, `delete`, `get`, `list`, `stats`)
modelled as pure functions over an explicit database state.  SQL
behaviour that the source relies on (the `LIKE` operator, `ORDER BY`
with secondary keys and `NULLS LAST`, `GROUP BY`, `WHERE` conjunction)
is embedded explicitly so that the generated statements' semantics are
part of the model.
-/

namespace MediaLib

/-- Source `src/models.rs`: `enum Category { Book, Movie, Game, Music, Other }`. -/
inductive Category : Type
  | Book
  | Movie
  | Game
  | Music
  | Other
deriving DecidableEq

/-- Source `src/models.rs`: `Category::as_str`. -/
def Category.as_str : Category → String
  | .Book => "Book"
  | .Movie => "Movie"
  | .Game => "Game"
  | .Music => "Music"
  | .Other => "Other"

/-- Source `src/models.rs`: `enum Status { Planned, InProgress, Finished }`. -/
inductive Status : Type
  | Planned
  | InProgress
  | Finished
deriving DecidableEq

/-- Source `src/models.rs`: `Status::as_str`. -/
def Status.as_str : Status → String
  | .Planned => "Planned"
  | .InProgress => "In Progress"
  | .Finished => "Finished"

/-- Model of `chrono::DateTime<Local>` as the instant it denotes: whole
seconds since the epoch plus a sub-second nanosecond component (chrono
keeps values normalised, `0 ≤ nsec < 10^9`).  Equality of instants is
field-wise equality on this normalised form. -/
structure DateTime : Type where
  sec : Int
  nsec : Nat
deriving DecidableEq

/-- `chrono`'s `DateTime::timestamp()`: the instant truncated to whole
seconds since the epoch (on the normalised representation this is the
`sec` field). -/
def DateTime.timestamp (t : DateTime) : Int := t.sec

/-- Source `src/models.rs`: `struct MediaItem`.  `rating: Option<u8>` is
modelled as `Option (Fin 256)`, matching the `u8` value range. -/
structure MediaItem : Type where
  id : Option Int
  title : String
  category : Category
  status : Status
  rating : Option (Fin 256)
  notes : Option String
  cover_path : Option String
  created_at : DateTime
  updated_at : DateTime
deriving DecidableEq

/-- Source `src/models.rs`: `enum SortField`. -/
inductive SortField : Type
  | Title
  | Category
  | Status
  | Rating
  | CreatedAt
  | UpdatedAt
deriving DecidableEq

/-- Source `src/models.rs`: `enum SortOrder { Asc, Desc }`. -/
inductive SortOrder : Type
  | Asc
  | Desc
deriving DecidableEq

/-- Source `src/models.rs`: `struct Query`.  `min_rating: Option<u8>` is
modelled as `Option (Fin 256)`. -/
structure Query : Type where
  title_substr : String
  category : Option Category
  status : Option Status
  min_rating : Option (Fin 256)
  sort_field : SortField
  sort_order : SortOrder

/-- Source `src/models.rs`: `impl Default for Query`. -/
def Query.default : Query :=
  { title_substr := ""
    category := none
    status := none
    min_rating := none
    sort_field := SortField.Title
    sort_order := SortOrder.Asc }

/-- Source `src/repo.rs`: `struct Stats`.  `usize` counts are modelled
as `Nat`. -/
structure Stats : Type where
  total : Nat
  by_category : List (String × Nat)
  finished : Nat
  unfinished : Nat
deriving DecidableEq

/-- One row of the `media` table of `src/sqlite_repo.rs` (`CREATE TABLE
media`): `INTEGER` columns are `Int`, nullable columns are `Option`. -/
structure Row : Type where
  id : Int
  title : String
  category : Int
  status : Int
  rating : Option Int
  notes : Option String
  cover_path : Option String
  created_at : Int
  updated_at : Int
deriving DecidableEq

/-- The database state behind the repository: the rows of the `media`
table plus the next `AUTOINCREMENT` rowid (SQLite's `AUTOINCREMENT`
hands out strictly increasing ids, never reusing one). -/
structure Db : Type where
  rows : List Row
  nextId : Int
deriving DecidableEq

/-- Well-formedness of a database reachable through the repository:
every stored rowid is below the `AUTOINCREMENT` counter, so a fresh id
never collides with an existing row. -/
def Db.WF (db : Db) : Prop := ∀ r ∈ db.rows, r.id < db.nextId

/-- Source `src/sqlite_repo.rs`: `fn cat_to_i`. -/
def cat_to_i : Category → Int
  | .Book => 0
  | .Movie => 1
  | .Game => 2
  | .Music => 3
  | .Other => 4

/-- Source `src/sqlite_repo.rs`: `fn i_to_cat`.  The Rust `match` on an
`i64` tests the scrutinee against each literal in turn, which is the
`if`-chain below. -/
def i_to_cat (i : Int) : Category :=
  if i = 0 then .Book
  else if i = 1 then .Movie
  else if i = 2 then .Game
  else if i = 3 then .Music
  else .Other

/-- Source `src/sqlite_repo.rs`: `fn status_to_i`. -/
def status_to_i : Status → Int
  | .Planned => 0
  | .InProgress => 1
  | .Finished => 2

/-- Source `src/sqlite_repo.rs`: `fn i_to_status`. -/
def i_to_status (i : Int) : Status :=
  if i = 1 then .InProgress
  else if i = 2 then .Finished
  else .Planned

/-- Rust's `r as u8` on an `i64`: truncation to the low 8 bits, i.e. the
value modulo 256 (`Int.emod` with a positive modulus lands in `[0, 256)`). -/
def decodeRating (r : Int) : Fin 256 :=
  ⟨(r % 256).toNat, by omega⟩

/-- `item.rating.map(|r| r as i64)` of `src/sqlite_repo.rs` (`u8` to
`i64` is exact). -/
def encRating (r : Option (Fin 256)) : Option Int :=
  r.map (fun v => (v.val : Int))

/-- Source `src/sqlite_repo.rs`: `fn row_to_item`.  `rating.map(|r| r as u8)`
truncates modulo 256; `Local.timestamp_opt(secs, 0)` rebuilds the
instant with a zero sub-second component. -/
def row_to_item (r : Row) : MediaItem :=
  { id := some r.id
    title := r.title
    category := i_to_cat r.category
    status := i_to_status r.status
    rating := r.rating.map decodeRating
    notes := r.notes
    cover_path := r.cover_path
    created_at := { sec := r.created_at, nsec := 0 }
    updated_at := { sec := r.updated_at, nsec := 0 } }

/-- Rust `str::trim`: the string with whitespace stripped from both
ends (the whitespace characters relevant here are the ASCII ones, on
which Rust and Lean's `Char.isWhitespace` agree). -/
def strTrim (s : String) : String :=
  ⟨((s.data.dropWhile Char.isWhitespace).reverse.dropWhile Char.isWhitespace).reverse⟩

/-- SQLite's default case folding for `LIKE`: only the ASCII letters
compare case-insensitively; everything else is compared exactly. -/
def asciiLower (c : Char) : Char :=
  if 'A' ≤ c ∧ c ≤ 'Z' then Char.ofNat (c.toNat + 32) else c

/-- SQLite `LIKE` pattern matching against a whole string: an ordinary
pattern character matches ASCII-case-insensitively, the wildcard
character U+0025 matches any (possibly empty) sequence — i.e. the rest
of the pattern may match any suffix — and U+005F matches exactly one
character. -/
def likeMatch : List Char → List Char → Bool
  | [], s => s.isEmpty
  | '%' :: ps, s => s.tails.any fun t => likeMatch ps t
  | '_' :: _, [] => false
  | '_' :: ps, _ :: cs => likeMatch ps cs
  | _ :: _, [] => false
  | p :: ps, c :: cs => (asciiLower p == asciiLower c) && likeMatch ps cs

/-- The `LIKE` pattern built by `SqliteRepo::list` for the title filter:
`format!` of the trimmed substring between two wildcards. -/
def titlePattern (q : Query) : String :=
  "%" ++ strTrim q.title_substr ++ "%"

/-- A parameter bound into the compiled statement (the source's
`Box<dyn ToSql>` values are either the `LIKE` pattern text or an `i64`). -/
inductive SqlParam : Type
  | text (v : String)
  | int (v : Int)
deriving DecidableEq

/-- Source `SqliteRepo::list`: the `where_clauses` vector, one SQL
fragment pushed per set field of the query, in source order. -/
def whereClauses (q : Query) : List String :=
  (if (strTrim q.title_substr).isEmpty then [] else ["title LIKE ?"])
    ++ (match q.category with
        | some _ => ["category = ?"]
        | none => [])
    ++ (match q.status with
        | some _ => ["status = ?"]
        | none => [])
    ++ (match q.min_rating with
        | some _ => ["rating >= ?"]
        | none => [])

/-- Source `SqliteRepo::list`: the `params_dyn` vector, one bound value
pushed alongside each clause. -/
def queryParams (q : Query) : List SqlParam :=
  (if (strTrim q.title_substr).isEmpty then [] else [SqlParam.text (titlePattern q)])
    ++ (match q.category with
        | some c => [SqlParam.int (cat_to_i c)]
        | none => [])
    ++ (match q.status with
        | some s => [SqlParam.int (status_to_i s)]
        | none => [])
    ++ (match q.min_rating with
        | some m => [SqlParam.int (m.val : Int)]
        | none => [])

/-- Semantics of the clause `title LIKE ?` with the bound pattern. -/
def titlePred (q : Query) (r : Row) : Bool :=
  likeMatch (titlePattern q).toList r.title.toList

/-- Semantics of `category = ?` with the bound encoded category. -/
def catPred (c : Category) (r : Row) : Bool :=
  r.category == cat_to_i c

/-- Semantics of `status = ?` with the bound encoded status. -/
def statusPred (s : Status) (r : Row) : Bool :=
  r.status == status_to_i s

/-- Semantics of `rating >= ?`: a SQL comparison with a `NULL` rating
yields `NULL`, which the `WHERE` clause treats as not matching. -/
def ratingPred (m : Fin 256) (r : Row) : Bool :=
  match r.rating with
  | some v => decide ((m.val : Int) ≤ v)
  | none => false

/-- The semantics of the compiled `WHERE` clause: the pushed predicates
in source order, one per set field. -/
def queryPredList (q : Query) : List (Row → Bool) :=
  (if (strTrim q.title_substr).isEmpty then [] else [titlePred q])
    ++ (match q.category with
        | some c => [catPred c]
        | none => [])
    ++ (match q.status with
        | some s => [statusPred s]
        | none => [])
    ++ (match q.min_rating with
        | some m => [ratingPred m]
        | none => [])

/-- A row satisfies the `WHERE` clause iff it satisfies the conjunction
(`" AND "`-join) of the emitted predicates. -/
def rowMatches (q : Query) (r : Row) : Bool :=
  (queryPredList q).all (fun p => p r)

/-- Source `SqliteRepo::list`: the `ORDER BY` fragment chosen by the
`match (q.sort_field, q.sort_order)` table. -/
def orderByClause : SortField → SortOrder → String
  | .Title, .Asc => "title ASC"
  | .Title, .Desc => "title DESC"
  | .Category, .Asc => "category ASC, title ASC"
  | .Category, .Desc => "category DESC, title ASC"
  | .Status, .Asc => "status ASC, updated_at DESC"
  | .Status, .Desc => "status DESC, updated_at DESC"
  | .Rating, .Asc => "rating ASC NULLS LAST, title ASC"
  | .Rating, .Desc => "rating DESC NULLS LAST, title ASC"
  | .CreatedAt, .Asc => "created_at ASC"
  | .CreatedAt, .Desc => "created_at DESC"
  | .UpdatedAt, .Asc => "updated_at ASC"
  | .UpdatedAt, .Desc => "updated_at DESC"

/-- The fixed `SELECT` head of `SqliteRepo::list` and `SqliteRepo::get`. -/
def baseSelect : String :=
  "SELECT id, title, category, status, rating, notes, cover_path, created_at, updated_at FROM media"

/-- Source `SqliteRepo::list`: the full statement text, appending
`" WHERE "` plus the `" AND "`-joined clauses only when some clause was
pushed, then the `ORDER BY` fragment. -/
def listSql (q : Query) : String :=
  baseSelect
    ++ (if (whereClauses q).isEmpty then ""
        else " WHERE " ++ String.intercalate " AND " (whereClauses q))
    ++ " ORDER BY " ++ orderByClause q.sort_field q.sort_order

/-- The ordering relation (`a` may come before `b`) denoted by each
`ORDER BY` fragment of `SqliteRepo::list`.  Text columns compare by the
`BINARY` collation, which on UTF-8 agrees with code-point order, i.e.
Lean's `String` order; `NULLS LAST` puts `NULL` ratings after every
rated row in both directions. -/
def orderLe (f : SortField) (o : SortOrder) (a b : Row) : Bool :=
  match f, o with
  | .Title, .Asc => decide (a.title ≤ b.title)
  | .Title, .Desc => decide (b.title ≤ a.title)
  | .Category, .Asc =>
    decide (a.category < b.category ∨ (a.category = b.category ∧ a.title ≤ b.title))
  | .Category, .Desc =>
    decide (b.category < a.category ∨ (b.category = a.category ∧ a.title ≤ b.title))
  | .Status, .Asc =>
    decide (a.status < b.status ∨ (a.status = b.status ∧ b.updated_at ≤ a.updated_at))
  | .Status, .Desc =>
    decide (b.status < a.status ∨ (b.status = a.status ∧ b.updated_at ≤ a.updated_at))
  | .Rating, .Asc =>
    match a.rating, b.rating with
    | some x, some y => decide (x < y ∨ (x = y ∧ a.title ≤ b.title))
    | some _, none => true
    | none, some _ => false
    | none, none => decide (a.title ≤ b.title)
  | .Rating, .Desc =>
    match a.rating, b.rating with
    | some x, some y => decide (y < x ∨ (y = x ∧ a.title ≤ b.title))
    | some _, none => true
    | none, some _ => false
    | none, none => decide (a.title ≤ b.title)
  | .CreatedAt, .Asc => decide (a.created_at ≤ b.created_at)
  | .CreatedAt, .Desc => decide (b.created_at ≤ a.created_at)
  | .UpdatedAt, .Asc => decide (a.updated_at ≤ b.updated_at)
  | .UpdatedAt, .Desc => decide (b.updated_at ≤ a.updated_at)

namespace SqliteRepo

/-- Source `SqliteRepo::add`: insert a row built from every field but
the identity (timestamps stored via `.timestamp()`, i.e. whole seconds),
let `AUTOINCREMENT` assign the next rowid, write that id back onto the
caller's record (`item.id = Some(id)`) and return it.  The result is
the new database state, the mutated record, and the returned id. -/
def add (db : Db) (item : MediaItem) : Db × MediaItem × Int :=
  let id := db.nextId
  let row : Row :=
    { id := id
      title := item.title
      category := cat_to_i item.category
      status := status_to_i item.status
      rating := encRating item.rating
      notes := item.notes
      cover_path := item.cover_path
      created_at := item.created_at.timestamp
      updated_at := item.updated_at.timestamp }
  (⟨db.rows ++ [row], db.nextId + 1⟩, { item with id := some id }, id)

/-- Source `SqliteRepo::update`: `UPDATE media SET title=?1, ...,
updated_at=?7 WHERE id=?8` overwrites the mutable columns of every row
whose id equals the bound `item.id` (when `item.id` is `None` the bound
`NULL` compares equal to nothing, so no row is touched); `id` and
`created_at` are not in the `SET` list. -/
def update (db : Db) (item : MediaItem) : Db :=
  { db with
    rows := db.rows.map fun r =>
      if some r.id = item.id then
        { r with
          title := item.title
          category := cat_to_i item.category
          status := status_to_i item.status
          rating := encRating item.rating
          notes := item.notes
          cover_path := item.cover_path
          updated_at := item.updated_at.timestamp }
      else r }

/-- Source `SqliteRepo::delete`: `DELETE FROM media WHERE id = ?1`. -/
def delete (db : Db) (id : Int) : Db :=
  { db with rows := db.rows.filter fun r => r.id ≠ id }

/-- Source `SqliteRepo::get`: `SELECT ... FROM media WHERE id=?1` read
through `query_row(...).optional()`, decoding the row with `row_to_item`
when present. -/
def get (db : Db) (id : Int) : Option MediaItem :=
  (db.rows.find? fun r => r.id == id).map row_to_item

/-- The rows produced by the compiled `list` statement: the rows
satisfying the `WHERE` conjunction, arranged consistently with the
`ORDER BY` relation (rows tied on every sort key may come in any order
in SQL; the model fixes mergeSort's choice). -/
def listRows (db : Db) (q : Query) : List Row :=
  (db.rows.filter (rowMatches q)).mergeSort (orderLe q.sort_field q.sort_order)

/-- Source `SqliteRepo::list`: execute the compiled statement and decode
each returned row with `row_to_item`. -/
def list (db : Db) (q : Query) : List MediaItem :=
  (listRows db q).map row_to_item

/-- Source `SqliteRepo::stats`: `COUNT(*)`, `GROUP BY category` decoded
through `i_to_cat(...).as_str()`, `COUNT(*) WHERE status = 2`, and the
derived `unfinished = total - finished`.  `GROUP BY` yields one group
per distinct stored category code. -/
def stats (db : Db) : Stats :=
  let total := db.rows.length
  let by_category :=
    ((db.rows.map Row.category).dedup).map fun code =>
      ((i_to_cat code).as_str, db.rows.countP fun r => r.category == code)
  let finished := db.rows.countP fun r => r.status == status_to_i Status.Finished
  { total := total
    by_category := by_category
    finished := finished
    unfinished := total - finished }

end SqliteRepo

/-- Case-sensitive prefix test over character lists. -/
def isPrefixCh : List Char → List Char → Bool
  | [], _ => true
  | _ :: _, [] => false
  | a :: as, b :: bs => a == b && isPrefixCh as bs

/-- Case-sensitive substring containment.  This definition follows the
SPEC's words for the title filter ("case-sensitive containment"), to be
compared against the `LIKE` semantics the generated SQL actually has. -/
def specTitleContains (needle hay : String) : Bool :=
  hay.data.tails.any (isPrefixCh needle.data)

/-- The conjunction of the category, status and rating predicates of the
compiled `WHERE` clause (everything except the title predicate). -/
def otherFilters (q : Query) (r : Row) : Bool :=
  (match q.category with
   | some c => catPred c r
   | none => true)
    && (match q.status with
        | some s => statusPred s r
        | none => true)
    && (match q.min_rating with
        | some m => ratingPred m r
        | none => true)

/-- The primary-key constraint of an `ORDER BY` direction: the key of an
earlier row is below (`ASC`) or above (`DESC`) the key of a later row. -/
def dirLe {α : Type} [LE α] (o : SortOrder) (x y : α) : Prop :=
  match o with
  | .Asc => x ≤ y
  | .Desc => y ≤ x

/-- Concrete stored row used in concrete checks: uppercase title. -/
def rowABC : Row :=
  { id := 1, title := "ABC", category := 1, status := 0, rating := none,
    notes := none, cover_path := none, created_at := 10, updated_at := 10 }

/-- A one-row database containing `rowABC`. -/
def dbABC : Db := ⟨[rowABC], 2⟩

/-- A query filtering on the lowercase title substring. -/
def qTitleLower : Query :=
  { title_substr := "abc", category := none, status := none, min_rating := none,
    sort_field := SortField.Title, sort_order := SortOrder.Asc }

/-- Concrete rows mirroring the spec's scenario: an unrated movie and
two rated books. -/
def rowDune : Row :=
  { id := 1, title := "Dune", category := 1, status := 0, rating := none,
    notes := none, cover_path := none, created_at := 1, updated_at := 1 }

/-- Second scenario row: a rated book. -/
def rowDuneMessiah : Row :=
  { id := 2, title := "Dune Messiah", category := 0, status := 0, rating := some 8,
    notes := none, cover_path := none, created_at := 2, updated_at := 2 }

/-- Third scenario row: another rated book. -/
def rowFoundation : Row :=
  { id := 3, title := "Foundation", category := 0, status := 0, rating := some 6,
    notes := none, cover_path := none, created_at := 3, updated_at := 3 }

/-- The three-row scenario database. -/
def db3 : Db := ⟨[rowDune, rowDuneMessiah, rowFoundation], 4⟩

/-- A row whose stored rating 300 lies outside the `u8` range (written
by some client other than `add`). -/
def rowOverflow : Row :=
  { id := 9, title := "Overflow", category := 4, status := 0, rating := some 300,
    notes := none, cover_path := none, created_at := 5, updated_at := 5 }

/-- A one-row database containing `rowOverflow`. -/
def dbOverflow : Db := ⟨[rowOverflow], 10⟩

/-- The empty database. -/
def dbEmpty : Db := ⟨[], 1⟩

/-- A record whose `created_at` carries a sub-second component. -/
def itemHalf : MediaItem :=
  { id := none, title := "Dune", category := Category.Movie, status := Status.Planned,
    rating := none, notes := none, cover_path := none,
    created_at := ⟨100, 500000000⟩, updated_at := ⟨100, 0⟩ }

/-- A record whose timestamps are whole seconds. -/
def itemWhole : MediaItem :=
  { id := none, title := "Dune", category := Category.Movie, status := Status.Planned,
    rating := some 7, notes := some "classic", cover_path := none,
    created_at := ⟨100, 0⟩, updated_at := ⟨100, 0⟩ }

/-- A record carrying an id (2) that `dbABC` does not contain. -/
def itemGhost : MediaItem :=
  { id := some 2, title := "Ghost", category := Category.Book, status := Status.Finished,
    rating := none, notes := none, cover_path := none,
    created_at := ⟨50, 0⟩, updated_at := ⟨60, 0⟩ }

/-- A record overwriting the stored row of id 1. -/
def itemOverwrite : MediaItem :=
  { id := some 1, title := "abc revised", category := Category.Game,
    status := Status.InProgress, rating := some 9, notes := some "n",
    cover_path := some "c.png", created_at := ⟨77, 0⟩, updated_at := ⟨88, 0⟩ }

/-- A query sorting by rating descending, no filters. -/
def qRatingDesc : Query :=
  { title_substr := "", category := none, status := none, min_rating := none,
    sort_field := SortField.Rating, sort_order := SortOrder.Desc }

/-- A query sorting by category ascending, no filters. -/
def qCatAsc : Query :=
  { title_substr := "", category := none, status := none, min_rating := none,
    sort_field := SortField.Category, sort_order := SortOrder.Asc }

/-- Transitivity of a two-key lexicographic comparison, abstracted over
the tie-break proposition. -/
theorem lex_or_trans {α : Type} [LinearOrder α] {t12 t23 t13 : Prop}
    {x1 x2 x3 : α} (ht : t12 → t23 → t13)
    (h1 : x1 < x2 ∨ (x1 = x2 ∧ t12)) (h2 : x2 < x3 ∨ (x2 = x3 ∧ t23)) :
    x1 < x3 ∨ (x1 = x3 ∧ t13) := by
  rcases h1 with h1 | ⟨e1, hy1⟩
  · rcases h2 with h2 | ⟨e2, hy2⟩
    · exact Or.inl (lt_trans h1 h2)
    · exact Or.inl (e2 ▸ h1)
  · rcases h2 with h2 | ⟨e2, hy2⟩
    · exact Or.inl (e1 ▸ h2)
    · exact Or.inr ⟨e1.trans e2, ht hy1 hy2⟩

/-- Totality of a two-key lexicographic comparison, abstracted over the
tie-break propositions. -/
theorem lex_or_total {α : Type} [LinearOrder α] {t12 t21 : Prop}
    (ht : t12 ∨ t21) (x1 x2 : α) :
    (x1 < x2 ∨ (x1 = x2 ∧ t12)) ∨ (x2 < x1 ∨ (x2 = x1 ∧ t21)) := by
  rcases lt_trichotomy x1 x2 with h | h | h
  · exact Or.inl (Or.inl h)
  · rcases ht with ht | ht
    · exact Or.inl (Or.inr ⟨h, ht⟩)
    · exact Or.inr (Or.inr ⟨h.symm, ht⟩)
  · exact Or.inr (Or.inl h)

/-- Every `ORDER BY` relation of the query compiler is transitive. -/
theorem orderLe_trans (f : SortField) (o : SortOrder) (a b c : Row)
    (hab : orderLe f o a b = true) (hbc : orderLe f o b c = true) :
    orderLe f o a c = true := by
  cases f with
  | Title =>
    cases o <;> simp only [orderLe, decide_eq_true_eq] at hab hbc ⊢
    · exact le_trans hab hbc
    · exact le_trans hbc hab
  | Category =>
    cases o <;> simp only [orderLe, decide_eq_true_eq] at hab hbc ⊢
    · exact lex_or_trans (fun h1 h2 => le_trans h1 h2) hab hbc
    · exact lex_or_trans (fun h1 h2 => le_trans h2 h1) hbc hab
  | Status =>
    cases o <;> simp only [orderLe, decide_eq_true_eq] at hab hbc ⊢
    · exact lex_or_trans (fun h1 h2 => le_trans h2 h1) hab hbc
    · exact lex_or_trans (fun h1 h2 => le_trans h1 h2) hbc hab
  | Rating =>
    cases o with
    | Asc =>
      rcases ha : a.rating with _ | x <;> rcases hb : b.rating with _ | y <;>
        rcases hc : c.rating with _ | z <;>
        simp only [orderLe, ha, hb, hc, decide_eq_true_eq, Bool.false_eq_true]
          at hab hbc ⊢
      · exact le_trans hab hbc
      · exact lex_or_trans (fun h1 h2 => le_trans h1 h2) hab hbc
    | Desc =>
      rcases ha : a.rating with _ | x <;> rcases hb : b.rating with _ | y <;>
        rcases hc : c.rating with _ | z <;>
        simp only [orderLe, ha, hb, hc, decide_eq_true_eq, Bool.false_eq_true]
          at hab hbc ⊢
      · exact le_trans hab hbc
      · exact lex_or_trans (fun h1 h2 => le_trans h2 h1) hbc hab
  | CreatedAt =>
    cases o <;> simp only [orderLe, decide_eq_true_eq] at hab hbc ⊢
    · exact le_trans hab hbc
    · exact le_trans hbc hab
  | UpdatedAt =>
    cases o <;> simp only [orderLe, decide_eq_true_eq] at hab hbc ⊢
    · exact le_trans hab hbc
    · exact le_trans hbc hab

/-- Every `ORDER BY` relation of the query compiler is total. -/
theorem orderLe_total (f : SortField) (o : SortOrder) (a b : Row) :
    (orderLe f o a b || orderLe f o b a) = true := by
  cases f with
  | Title =>
    cases o <;> simp only [orderLe, Bool.or_eq_true, decide_eq_true_eq]
    · exact le_total a.title b.title
    · exact le_total b.title a.title
  | Category =>
    cases o <;> simp only [orderLe, Bool.or_eq_true, decide_eq_true_eq]
    · exact lex_or_total (le_total a.title b.title) a.category b.category
    · exact lex_or_total (le_total a.title b.title) b.category a.category
  | Status =>
    cases o <;> simp only [orderLe, Bool.or_eq_true, decide_eq_true_eq]
    · exact lex_or_total (le_total b.updated_at a.updated_at) a.status b.status
    · exact lex_or_total (le_total b.updated_at a.updated_at) b.status a.status
  | Rating =>
    cases o with
    | Asc =>
      rcases ha : a.rating with _ | x <;> rcases hb : b.rating with _ | y <;>
        simp only [orderLe, ha, hb, Bool.or_eq_true, decide_eq_true_eq,
          Bool.or_true, Bool.true_or, Bool.false_eq_true, or_false, false_or]
      · exact le_total a.title b.title
      · exact lex_or_total (le_total a.title b.title) x y
    | Desc =>
      rcases ha : a.rating with _ | x <;> rcases hb : b.rating with _ | y <;>
        simp only [orderLe, ha, hb, Bool.or_eq_true, decide_eq_true_eq,
          Bool.or_true, Bool.true_or, Bool.false_eq_true, or_false, false_or]
      · exact le_total a.title b.title
      · exact lex_or_total (le_total a.title b.title) y x
  | CreatedAt =>
    cases o <;> simp only [orderLe, Bool.or_eq_true, decide_eq_true_eq]
    · exact le_total a.created_at b.created_at
    · exact le_total b.created_at a.created_at
  | UpdatedAt =>
    cases o <;> simp only [orderLe, Bool.or_eq_true, decide_eq_true_eq]
    · exact le_total a.updated_at b.updated_at
    · exact le_total b.updated_at a.updated_at

/-- The rows returned by `list` are arranged consistently with the
selected `ORDER BY` relation. -/
theorem listRows_pairwise (db : Db) (q : Query) :
    (SqliteRepo.listRows db q).Pairwise
      (fun a b => orderLe q.sort_field q.sort_order a b = true) :=
  List.sorted_mergeSort (orderLe_trans q.sort_field q.sort_order)
    (orderLe_total q.sort_field q.sort_order) (db.rows.filter (rowMatches q))

/-- The rows returned by `list` are exactly the stored rows satisfying
the compiled `WHERE` clause. -/
theorem listRows_perm (db : Db) (q : Query) :
    (SqliteRepo.listRows db q).Perm (db.rows.filter (rowMatches q)) :=
  List.mergeSort_perm (db.rows.filter (rowMatches q)) _

/-- Membership in the result of `list`: exactly the decodings of the
stored rows satisfying the compiled `WHERE` clause. -/
theorem mem_list_iff (db : Db) (q : Query) (m : MediaItem) :
    m ∈ SqliteRepo.list db q ↔
      ∃ r, r ∈ db.rows ∧ rowMatches q r = true ∧ m = row_to_item r := by
  unfold SqliteRepo.list
  rw [List.mem_map]
  constructor
  · rintro ⟨r, hr, rfl⟩
    have hr2 := (listRows_perm db q).mem_iff.mp hr
    rw [List.mem_filter] at hr2
    exact ⟨r, hr2.1, hr2.2, rfl⟩
  · rintro ⟨r, hr, hm, rfl⟩
    refine ⟨r, ?_, rfl⟩
    exact (listRows_perm db q).mem_iff.mpr (List.mem_filter.mpr ⟨hr, hm⟩)

/-- Decoding inverts encoding on category values. -/
theorem i_to_cat_cat_to_i (c : Category) : i_to_cat (cat_to_i c) = c := by
  cases c <;> decide

/-- Decoding inverts encoding on status values. -/
theorem i_to_status_status_to_i (s : Status) : i_to_status (status_to_i s) = s := by
  cases s <;> decide

/-- A `u8` rating stored as `i64` decodes back to itself. -/
theorem decode_encRating (r : Option (Fin 256)) :
    (encRating r).map decodeRating = r := by
  cases r with
  | none => rfl
  | some v =>
    have hv := v.isLt
    show some (decodeRating (v.val : Int)) = some v
    congr 1
    apply Fin.ext
    show ((v.val : Int) % 256).toNat = v.val
    omega

/-- On a well-formed database, `get` after `add` finds exactly the row
just inserted. -/
theorem get_after_add (db : Db) (item : MediaItem) (hwf : Db.WF db) :
    SqliteRepo.get (SqliteRepo.add db item).1 (SqliteRepo.add db item).2.2 =
      some (row_to_item
        { id := db.nextId, title := item.title, category := cat_to_i item.category,
          status := status_to_i item.status, rating := encRating item.rating,
          notes := item.notes, cover_path := item.cover_path,
          created_at := item.created_at.timestamp,
          updated_at := item.updated_at.timestamp }) := by
  unfold SqliteRepo.get SqliteRepo.add
  simp only [List.find?_append]
  rw [List.find?_eq_none.mpr]
  · simp [List.find?]
  · intro r hr
    simp only [beq_iff_eq]
    exact Int.ne_of_lt (hwf r hr)

/-- A stored status code equals the Finished code iff it decodes to
Finished. -/
theorem finished_code_iff (i : Int) :
    (i == status_to_i Status.Finished) = (i_to_status i == Status.Finished) := by
  by_cases h2 : i = 2
  · subst h2; decide
  · by_cases h1 : i = 1 <;> simp [status_to_i, i_to_status, h1, h2]

/-- Presentation names of distinct categories are distinct. -/
theorem as_str_inj (c1 c2 : Category) (h : c1.as_str = c2.as_str) : c1 = c2 := by
  cases c1 <;> cases c2 <;> first | rfl | (exfalso; simp [Category.as_str] at h)

/-- The compiled `WHERE` conjunction splits as the optional title
predicate together with the remaining field predicates. -/
theorem rowMatches_split (q : Query) (r : Row) :
    rowMatches q r =
      ((if (strTrim q.title_substr).isEmpty then true else titlePred q r)
        && otherFilters q r) := by
  rcases hc : q.category with _ | c <;> rcases hs : q.status with _ | s <;>
    rcases hm : q.min_rating with _ | m <;>
    by_cases ht : (strTrim q.title_substr).isEmpty <;>
    simp [rowMatches, queryPredList, otherFilters, hc, hs, hm, ht, Bool.and_assoc]

/-- What the rating `ORDER BY` relation guarantees about two rows in
order: a rated row never follows an unrated one, and equal ratings are
arranged by title. -/
theorem rating_orderLe_consequence (o : SortOrder) (a b : Row)
    (h : orderLe SortField.Rating o a b = true) :
    (a.rating = none → b.rating = none) ∧ (a.rating = b.rating → a.title ≤ b.title) := by
  cases o <;>
    rcases ha : a.rating with _ | x <;> rcases hb : b.rating with _ | y <;>
    simp only [orderLe, ha, hb, decide_eq_true_eq, Bool.false_eq_true] at h <;>
    constructor
  · intro _; rfl
  · intro _; exact h
  · intro hx; exact absurd hx (by simp)
  · intro hx; exact absurd hx (by simp)
  · intro hx; exact absurd hx (by simp)
  · intro hxy
    rw [Option.some_inj] at hxy
    subst hxy
    rcases h with h | ⟨_, h⟩
    · exact absurd h (lt_irrefl x)
    · exact h
  · intro _; rfl
  · intro _; exact h
  · intro hx; exact absurd hx (by simp)
  · intro hx; exact absurd hx (by simp)
  · intro hx; exact absurd hx (by simp)
  · intro hxy
    rw [Option.some_inj] at hxy
    subst hxy
    rcases h with h | ⟨_, h⟩
    · exact absurd h (lt_irrefl x)
    · exact h

/-- C1 (amended): for every record set and query whose `title_substr`
is non-empty after trimming, `list` returns exactly the records whose
title matches the SQL `LIKE` pattern built from the trimmed substring
between two wildcards — an ASCII-case-insensitive match in which any
U+0025 or U+005F inside the substring acts as a wildcard — conjoined
with the other set filters; a `title_substr` that is empty or
whitespace-only emits no title predicate. -/
theorem list_title_filter_like (db : Db) (q : Query) (m : MediaItem) :
    ((strTrim q.title_substr).isEmpty = false →
      (m ∈ SqliteRepo.list db q ↔
        ∃ r, r ∈ db.rows ∧
          likeMatch (titlePattern q).toList r.title.toList = true ∧
          otherFilters q r = true ∧ m = row_to_item r)) ∧
    ((strTrim q.title_substr).isEmpty = true →
      (m ∈ SqliteRepo.list db q ↔
        ∃ r, r ∈ db.rows ∧ otherFilters q r = true ∧ m = row_to_item r)) := by
  constructor
  · intro ht
    rw [mem_list_iff]
    constructor
    · rintro ⟨r, hr, hmatch, rfl⟩
      rw [rowMatches_split] at hmatch
      simp only [ht, Bool.false_eq_true, if_false, Bool.and_eq_true] at hmatch
      exact ⟨r, hr, hmatch.1, hmatch.2, rfl⟩
    · rintro ⟨r, hr, hlike, hof, rfl⟩
      refine ⟨r, hr, ?_, rfl⟩
      rw [rowMatches_split]
      simp only [ht, Bool.false_eq_true, if_false, Bool.and_eq_true]
      exact ⟨hlike, hof⟩
  · intro ht
    rw [mem_list_iff]
    constructor
    · rintro ⟨r, hr, hmatch, rfl⟩
      rw [rowMatches_split] at hmatch
      simp only [ht, if_true, Bool.true_and] at hmatch
      exact ⟨r, hr, hmatch, rfl⟩
    · rintro ⟨r, hr, hof, rfl⟩
      refine ⟨r, hr, ?_, rfl⟩
      rw [rowMatches_split]
      simp only [ht, if_true, Bool.true_and]
      exact hof

/-- C1 (counterexample to the claim as stated): for the one-row database
whose title is "ABC" and the query whose trimmed substring is "abc",
`list` returns that record although its title does not contain "abc" as
a case-sensitive substring — SQL `LIKE` matches ASCII letters
case-insensitively. -/
theorem list_title_case_cex :
    SqliteRepo.list dbABC qTitleLower = [row_to_item rowABC] ∧
    specTitleContains (strTrim qTitleLower.title_substr) rowABC.title = false := by
  constructor
  · unfold SqliteRepo.list SqliteRepo.listRows
    rw [show dbABC.rows.filter (rowMatches qTitleLower) = [rowABC] from by decide]
    rw [List.mergeSort_singleton]
    rfl
  · decide

/-- C1 (witness): the amended theorem applied at the concrete one-row
database and lowercase query. -/
theorem list_title_filter_like_witness :
    row_to_item rowABC ∈ SqliteRepo.list dbABC qTitleLower :=
  ((list_title_filter_like dbABC qTitleLower (row_to_item rowABC)).1 (by decide)).mpr
    ⟨rowABC, by decide, by decide, by decide, rfl⟩

/-- C2: every category and status value round-trips through its integer
encoding (Book=0, Movie=1, Game=2, Music=3, Other=4; Planned=0,
InProgress=1, Finished=2), and decoding is total over all integers:
every integer outside the known category codes decodes to Other and
every integer outside the known status codes decodes to Planned. -/
theorem enum_codes_roundtrip_and_total_decode :
    (∀ c : Category, i_to_cat (cat_to_i c) = c) ∧
    (∀ s : Status, i_to_status (status_to_i s) = s) ∧
    (cat_to_i Category.Book = 0 ∧ cat_to_i Category.Movie = 1 ∧
      cat_to_i Category.Game = 2 ∧ cat_to_i Category.Music = 3 ∧
      cat_to_i Category.Other = 4) ∧
    (status_to_i Status.Planned = 0 ∧ status_to_i Status.InProgress = 1 ∧
      status_to_i Status.Finished = 2) ∧
    (∀ i : Int, i ≠ 0 → i ≠ 1 → i ≠ 2 → i ≠ 3 → i_to_cat i = Category.Other) ∧
    (∀ i : Int, i ≠ 0 → i ≠ 1 → i ≠ 2 → i_to_status i = Status.Planned) := by
  refine ⟨fun c => ?_, fun s => ?_, by decide, by decide,
    fun i h0 h1 h2 h3 => ?_, fun i h0 h1 h2 => ?_⟩
  · cases c <;> decide
  · cases s <;> decide
  · simp [i_to_cat, h0, h1, h2, h3]
  · simp [i_to_status, h1, h2]

/-- C2 (witness): decoding the out-of-range codes 99 and -7. -/
theorem enum_codes_roundtrip_and_total_decode_witness :
    i_to_cat 99 = Category.Other ∧ i_to_status (-7) = Status.Planned :=
  ⟨enum_codes_roundtrip_and_total_decode.2.2.2.2.1 99 (by decide) (by decide)
      (by decide) (by decide),
   enum_codes_roundtrip_and_total_decode.2.2.2.2.2 (-7) (by decide) (by decide)
      (by decide)⟩

/-- C3: sorting by Rating — in either direction — never places an
unrated record before a rated one, and rows with equal stored ratings
(including the unrated group) are arranged by title ascending. -/
theorem rating_sort_nulls_last (db : Db) (q : Query)
    (hf : q.sort_field = SortField.Rating) :
    (SqliteRepo.list db q).Pairwise
      (fun a b => a.rating = none → b.rating = none) ∧
    (SqliteRepo.listRows db q).Pairwise
      (fun a b => (a.rating = none → b.rating = none) ∧
        (a.rating = b.rating → a.title ≤ b.title)) := by
  have hp := listRows_pairwise db q
  rw [hf] at hp
  have hrows := hp.imp (fun hab => rating_orderLe_consequence q.sort_order _ _ hab)
  refine ⟨?_, hrows⟩
  unfold SqliteRepo.list
  refine List.Pairwise.map row_to_item ?_ hrows
  intro a b hab
  intro hnone
  show b.rating.map decodeRating = none
  have ha : a.rating = none := by
    by_contra hne
    rcases Option.ne_none_iff_exists'.mp hne with ⟨z, hz⟩
    rw [show (row_to_item a).rating = a.rating.map decodeRating from rfl, hz] at hnone
    simp at hnone
  rw [hab.1 ha]
  rfl

/-- C3 (witness): the theorem applied to the three-row scenario database
sorted by rating descending. -/
theorem rating_sort_nulls_last_witness :
    (SqliteRepo.list db3 qRatingDesc).Pairwise
      (fun a b => a.rating = none → b.rating = none) ∧
    (SqliteRepo.listRows db3 qRatingDesc).Pairwise
      (fun a b => (a.rating = none → b.rating = none) ∧
        (a.rating = b.rating → a.title ≤ b.title)) :=
  rating_sort_nulls_last db3 qRatingDesc rfl

/-- C4: the compiled filter is a conjunction of one predicate per set
field in the fixed order title-contains, category-equals, status-equals,
rating-at-least (the clause list is a sublist of that fixed sequence,
with a clause present exactly when its field is set), each clause binds
exactly one parameter, and when no filter field is set there is no
`WHERE` clause and every stored record is returned. -/
theorem query_filter_conjunction (db : Db) (q : Query) (r : Row) :
    ((whereClauses q).length = (queryParams q).length) ∧
    (List.Sublist (whereClauses q)
      ["title LIKE ?", "category = ?", "status = ?", "rating >= ?"]) ∧
    (("title LIKE ?" ∈ whereClauses q) ↔ (strTrim q.title_substr).isEmpty = false) ∧
    (("category = ?" ∈ whereClauses q) ↔ q.category ≠ none) ∧
    (("status = ?" ∈ whereClauses q) ↔ q.status ≠ none) ∧
    (("rating >= ?" ∈ whereClauses q) ↔ q.min_rating ≠ none) ∧
    (rowMatches q r =
      ((if (strTrim q.title_substr).isEmpty then true else titlePred q r)
        && (match q.category with | some c => catPred c r | none => true)
        && (match q.status with | some s => statusPred s r | none => true)
        && (match q.min_rating with | some m => ratingPred m r | none => true))) ∧
    ((strTrim q.title_substr).isEmpty = true → q.category = none → q.status = none →
      q.min_rating = none →
      listSql q = baseSelect ++ " ORDER BY " ++ orderByClause q.sort_field q.sort_order ∧
      (SqliteRepo.list db q).Perm (db.rows.map row_to_item)) := by
  refine ⟨?_, ?_, ?_, ?_, ?_, ?_, ?_, ?_⟩
  · rcases hc : q.category with _ | c <;> rcases hs : q.status with _ | s <;>
      rcases hm : q.min_rating with _ | m <;>
      by_cases ht : (strTrim q.title_substr).isEmpty <;>
      simp [whereClauses, queryParams, hc, hs, hm, ht]
  · rcases hc : q.category with _ | c <;> rcases hs : q.status with _ | s <;>
      rcases hm : q.min_rating with _ | m <;>
      by_cases ht : (strTrim q.title_substr).isEmpty <;>
      simp [whereClauses, hc, hs, hm, ht]
  · rcases hc : q.category with _ | c <;> rcases hs : q.status with _ | s <;>
      rcases hm : q.min_rating with _ | m <;>
      by_cases ht : (strTrim q.title_substr).isEmpty <;>
      simp [whereClauses, hc, hs, hm, ht]
  · rcases hc : q.category with _ | c <;> rcases hs : q.status with _ | s <;>
      rcases hm : q.min_rating with _ | m <;>
      by_cases ht : (strTrim q.title_substr).isEmpty <;>
      simp [whereClauses, hc, hs, hm, ht]
  · rcases hc : q.category with _ | c <;> rcases hs : q.status with _ | s <;>
      rcases hm : q.min_rating with _ | m <;>
      by_cases ht : (strTrim q.title_substr).isEmpty <;>
      simp [whereClauses, hc, hs, hm, ht]
  · rcases hc : q.category with _ | c <;> rcases hs : q.status with _ | s <;>
      rcases hm : q.min_rating with _ | m <;>
      by_cases ht : (strTrim q.title_substr).isEmpty <;>
      simp [whereClauses, hc, hs, hm, ht]
  · rcases hc : q.category with _ | c <;> rcases hs : q.status with _ | s <;>
      rcases hm : q.min_rating with _ | m <;>
      by_cases ht : (strTrim q.title_substr).isEmpty <;>
      simp [rowMatches, queryPredList, hc, hs, hm, ht, Bool.and_assoc]
  · intro ht hc hs hm
    constructor
    · unfold listSql
      rw [if_pos]
      · simp
      · simp [whereClauses, hc, hs, hm, ht]
    · have hall : db.rows.filter (rowMatches q) = db.rows := by
        apply List.filter_eq_self.mpr
        intro a ha
        simp [rowMatches, queryPredList, hc, hs, hm, ht]
      unfold SqliteRepo.list SqliteRepo.listRows
      rw [hall]
      exact (List.mergeSort_perm db.rows _).map row_to_item

/-- C4 (witness): the default query produces no `WHERE` clause and
returns every stored record. -/
theorem query_filter_conjunction_witness :
    listSql Query.default
      = baseSelect ++ " ORDER BY "
        ++ orderByClause Query.default.sort_field Query.default.sort_order ∧
    (SqliteRepo.list dbABC Query.default).Perm (dbABC.rows.map row_to_item) :=
  (query_filter_conjunction dbABC Query.default rowABC).2.2.2.2.2.2.2
    (by decide) rfl rfl rfl

/-- C5: the (sort field, sort order) pair selects the ordering by a
fixed mapping with the documented secondary keys: Category breaks ties
by title ascending, Status breaks ties by most-recently-updated first,
and Title, CreatedAt and UpdatedAt constrain only their primary key —
in particular rows tied on that key are unordered by the comparator in
both directions. -/
theorem order_by_mapping (db : Db) (q : Query) :
    (q.sort_field = SortField.Category →
      (SqliteRepo.listRows db q).Pairwise (fun a b =>
        dirLe q.sort_order a.category b.category ∧
        (a.category = b.category → a.title ≤ b.title))) ∧
    (q.sort_field = SortField.Status →
      (SqliteRepo.listRows db q).Pairwise (fun a b =>
        dirLe q.sort_order a.status b.status ∧
        (a.status = b.status → b.updated_at ≤ a.updated_at))) ∧
    (q.sort_field = SortField.Title →
      (SqliteRepo.listRows db q).Pairwise (fun a b =>
        dirLe q.sort_order a.title b.title)) ∧
    (q.sort_field = SortField.CreatedAt →
      (SqliteRepo.listRows db q).Pairwise (fun a b =>
        dirLe q.sort_order a.created_at b.created_at)) ∧
    (q.sort_field = SortField.UpdatedAt →
      (SqliteRepo.listRows db q).Pairwise (fun a b =>
        dirLe q.sort_order a.updated_at b.updated_at)) ∧
    (∀ a b : Row, a.title = b.title →
      orderLe SortField.Title q.sort_order a b = true) ∧
    (∀ a b : Row, a.created_at = b.created_at →
      orderLe SortField.CreatedAt q.sort_order a b = true) ∧
    (∀ a b : Row, a.updated_at = b.updated_at →
      orderLe SortField.UpdatedAt q.sort_order a b = true) := by
  have hp := listRows_pairwise db q
  refine ⟨?_, ?_, ?_, ?_, ?_, ?_, ?_, ?_⟩
  · intro hf
    rw [hf] at hp
    refine hp.imp (fun hab => ?_)
    revert hab
    cases q.sort_order <;> simp only [orderLe, decide_eq_true_eq, dirLe] <;>
      rintro (hlt | ⟨heq, hle⟩)
    · exact ⟨le_of_lt hlt, fun he => absurd hlt (by rw [he]; exact lt_irrefl _)⟩
    · exact ⟨le_of_eq heq, fun _ => hle⟩
    · exact ⟨le_of_lt hlt, fun he => absurd hlt (by rw [he]; exact lt_irrefl _)⟩
    · exact ⟨le_of_eq heq, fun _ => hle⟩
  · intro hf
    rw [hf] at hp
    refine hp.imp (fun hab => ?_)
    revert hab
    cases q.sort_order <;> simp only [orderLe, decide_eq_true_eq, dirLe] <;>
      rintro (hlt | ⟨heq, hle⟩)
    · exact ⟨le_of_lt hlt, fun he => absurd hlt (by rw [he]; exact lt_irrefl _)⟩
    · exact ⟨le_of_eq heq, fun _ => hle⟩
    · exact ⟨le_of_lt hlt, fun he => absurd hlt (by rw [he]; exact lt_irrefl _)⟩
    · exact ⟨le_of_eq heq, fun _ => hle⟩
  · intro hf
    rw [hf] at hp
    refine hp.imp (fun hab => ?_)
    revert hab
    cases q.sort_order <;> simp only [orderLe, decide_eq_true_eq, dirLe] <;> exact id
  · intro hf
    rw [hf] at hp
    refine hp.imp (fun hab => ?_)
    revert hab
    cases q.sort_order <;> simp only [orderLe, decide_eq_true_eq, dirLe] <;> exact id
  · intro hf
    rw [hf] at hp
    refine hp.imp (fun hab => ?_)
    revert hab
    cases q.sort_order <;> simp only [orderLe, decide_eq_true_eq, dirLe] <;> exact id
  · intro a b he
    cases q.sort_order <;> simp [orderLe, he]
  · intro a b he
    cases q.sort_order <;> simp [orderLe, he]
  · intro a b he
    cases q.sort_order <;> simp [orderLe, he]

/-- C5 (witness): the theorem applied to the scenario database sorted by
category ascending. -/
theorem order_by_mapping_witness :
    (SqliteRepo.listRows db3 qCatAsc).Pairwise (fun a b =>
      dirLe qCatAsc.sort_order a.category b.category ∧
      (a.category = b.category → a.title ≤ b.title)) :=
  (order_by_mapping db3 qCatAsc).1 rfl

/-- C6 (amended): after `add(r)` succeeds returning `id`, `get(id)`
returns a record equal to `r` in every field except the populated `id`,
provided the timestamps of `r` carry no sub-second component; in
general the returned timestamps are `r`'s truncated to whole seconds. -/
theorem add_then_get_roundtrip (db : Db) (item : MediaItem) (hwf : Db.WF db)
    (hc : item.created_at.nsec = 0) (hu : item.updated_at.nsec = 0) :
    SqliteRepo.get (SqliteRepo.add db item).1 (SqliteRepo.add db item).2.2 =
      some { item with id := some (SqliteRepo.add db item).2.2 } := by
  rw [get_after_add db item hwf]
  congr 1
  rcases item with ⟨id0, title0, cat0, st0, rat0, no0, cov0, ⟨cs, cn⟩, ⟨us, un⟩⟩
  simp only [DateTime.nsec] at hc hu
  subst hc hu
  simp [row_to_item, i_to_cat_cat_to_i, i_to_status_status_to_i, decode_encRating,
    DateTime.timestamp]
  rfl

/-- C6 (counterexample to the claim as stated): a record whose
`created_at` carries half a second is not returned unchanged by
`get` after `add` — the stored timestamp is truncated to whole
seconds. -/
theorem add_get_truncation_cex :
    SqliteRepo.get (SqliteRepo.add dbEmpty itemHalf).1
        (SqliteRepo.add dbEmpty itemHalf).2.2
      ≠ some { itemHalf with id := some (SqliteRepo.add dbEmpty itemHalf).2.2 } := by
  decide

/-- C6 (witness): the amended theorem applied to a whole-second record
added to the empty database. -/
theorem add_then_get_roundtrip_witness :
    SqliteRepo.get (SqliteRepo.add dbEmpty itemWhole).1
        (SqliteRepo.add dbEmpty itemWhole).2.2
      = some { itemWhole with id := some (SqliteRepo.add dbEmpty itemWhole).2.2 } :=
  add_then_get_roundtrip dbEmpty itemWhole (by intro r hr; simp [dbEmpty] at hr) rfl rfl

/-- C7: after `update(r)` succeeds for a stored row matching `r.id`,
that row's title, category, status, rating, notes, cover_path and
updated_at equal `r`'s (encoded) values while its `created_at` and `id`
are unchanged, and every row with a different id is untouched. -/
theorem update_overwrites_mutable_fields_only (db : Db) (item : MediaItem) (i : Int)
    (hid : item.id = some i) :
    (∀ r ∈ db.rows, r.id = i →
      ∃ r2 ∈ (SqliteRepo.update db item).rows,
        r2.id = r.id ∧ r2.created_at = r.created_at ∧
        r2.title = item.title ∧ r2.category = cat_to_i item.category ∧
        r2.status = status_to_i item.status ∧ r2.rating = encRating item.rating ∧
        r2.notes = item.notes ∧ r2.cover_path = item.cover_path ∧
        r2.updated_at = item.updated_at.timestamp) ∧
    (∀ r ∈ db.rows, r.id ≠ i → r ∈ (SqliteRepo.update db item).rows) := by
  constructor
  · intro r hr hri
    have hcond : some r.id = item.id := by rw [hid, hri]
    refine ⟨_, List.mem_map.mpr ⟨r, hr, rfl⟩, ?_⟩
    rw [if_pos hcond]
    exact ⟨rfl, rfl, rfl, rfl, rfl, rfl, rfl, rfl, rfl⟩
  · intro r hr hri
    refine List.mem_map.mpr ⟨r, hr, ?_⟩
    rw [if_neg]
    rw [hid]
    simp only [Option.some.injEq]
    exact hri

/-- C7 (witness): updating the stored row of id 1 with a fresh record
overwrites exactly the mutable columns. -/
theorem update_overwrites_mutable_fields_only_witness :
    ∃ r2 ∈ (SqliteRepo.update dbABC itemOverwrite).rows,
      r2.id = rowABC.id ∧ r2.created_at = rowABC.created_at ∧
      r2.title = itemOverwrite.title ∧ r2.category = cat_to_i itemOverwrite.category ∧
      r2.status = status_to_i itemOverwrite.status ∧
      r2.rating = encRating itemOverwrite.rating ∧
      r2.notes = itemOverwrite.notes ∧ r2.cover_path = itemOverwrite.cover_path ∧
      r2.updated_at = itemOverwrite.updated_at.timestamp :=
  (update_overwrites_mutable_fields_only dbABC itemOverwrite 1 rfl).1 rowABC
    (by decide) rfl

/-- C8: `stats` reports the total row count, the count of rows whose
status decodes to Finished, `unfinished = total - finished` (derived,
not re-queried), per-category counts summing to the total, and a
category with no stored rows is absent from `by_category`. -/
theorem stats_consistency (db : Db) :
    (SqliteRepo.stats db).total = db.rows.length ∧
    (SqliteRepo.stats db).finished
      = db.rows.countP (fun r => i_to_status r.status == Status.Finished) ∧
    (SqliteRepo.stats db).unfinished
      = (SqliteRepo.stats db).total - (SqliteRepo.stats db).finished ∧
    ((SqliteRepo.stats db).by_category.map Prod.snd).sum = (SqliteRepo.stats db).total ∧
    (∀ c : Category, (∀ r ∈ db.rows, i_to_cat r.category ≠ c) →
      ∀ p ∈ (SqliteRepo.stats db).by_category, p.1 ≠ c.as_str) := by
  refine ⟨rfl, ?_, rfl, ?_, ?_⟩
  · show db.rows.countP (fun r => r.status == status_to_i Status.Finished) = _
    apply List.countP_congr
    intro r hr
    constructor <;> intro h
    · rw [← finished_code_iff]; exact h
    · rw [finished_code_iff]; exact h
  · show (((db.rows.map Row.category).dedup).map
        (fun code => ((i_to_cat code).as_str, db.rows.countP fun r => r.category == code))
        |>.map Prod.snd).sum = db.rows.length
    rw [List.map_map]
    have hcount : ((db.rows.map Row.category).dedup).map
        (Prod.snd ∘ fun code =>
          ((i_to_cat code).as_str, db.rows.countP fun r => r.category == code))
        = ((db.rows.map Row.category).dedup).map
          (fun code => (db.rows.map Row.category).count code) := by
      apply List.map_congr_left
      intro code hcode
      show db.rows.countP (fun r => r.category == code) = _
      rw [List.count, List.countP_map]
      rfl
    rw [hcount, List.sum_map_count_dedup_eq_length, List.length_map]
  · intro c hc p hp
    simp only [SqliteRepo.stats, List.mem_map] at hp
    obtain ⟨code, hcode, rfl⟩ := hp
    rw [List.mem_dedup, List.mem_map] at hcode
    obtain ⟨r, hr, rfl⟩ := hcode
    intro heq
    exact hc r hr (as_str_inj _ _ heq)

/-- C8 (witness): the theorem applied to the scenario database: the
per-category counts sum to the total, and no `by_category` entry names
the absent Music category. -/
theorem stats_consistency_witness :
    ((SqliteRepo.stats db3).by_category.map Prod.snd).sum = (SqliteRepo.stats db3).total ∧
    (("Movie", 1) : String × Nat).1 ≠ Category.Music.as_str :=
  ⟨(stats_consistency db3).2.2.2.1,
   (stats_consistency db3).2.2.2.2 Category.Music (by decide) ("Movie", 1) (by decide)⟩

/-- C9: against an id not present in the store, `update` and `delete`
succeed as no-ops leaving the database unchanged, and `get` returns the
empty result rather than an error. -/
theorem missing_id_noop (db : Db) (i : Int) (item : MediaItem)
    (hitem : item.id = some i) (habs : ∀ r ∈ db.rows, r.id ≠ i) :
    SqliteRepo.update db item = db ∧
    SqliteRepo.delete db i = db ∧
    SqliteRepo.get db i = none := by
  refine ⟨?_, ?_, ?_⟩
  · rcases db with ⟨rows, nid⟩
    unfold SqliteRepo.update
    simp only [Db.mk.injEq, and_true]
    refine (List.map_congr_left ?_).trans (List.map_id rows)
    intro r hr
    rw [if_neg]
    · rfl
    · rw [hitem]
      simp only [Option.some.injEq]
      exact habs r hr
  · rcases db with ⟨rows, nid⟩
    unfold SqliteRepo.delete
    simp only [Db.mk.injEq, and_true]
    refine List.filter_eq_self.mpr ?_
    intro r hr
    exact decide_eq_true (habs r hr)
  · unfold SqliteRepo.get
    rw [List.find?_eq_none.mpr]
    · rfl
    · intro r hr
      simp only [beq_iff_eq]
      exact habs r hr

/-- C9 (witness): id 2 is absent from the one-row database, so update,
delete and get against it are no-ops and an empty read. -/
theorem missing_id_noop_witness :
    SqliteRepo.update dbABC itemGhost = dbABC ∧
    SqliteRepo.delete dbABC 2 = dbABC ∧
    SqliteRepo.get dbABC 2 = none :=
  missing_id_noop dbABC 2 itemGhost rfl (by decide)

/-- C10: a record added with a `u8` rating round-trips that rating
exactly through `get`, while any stored rating integer decodes through
`row_to_item` to its value modulo 256, never failing. -/
theorem rating_decode_mod256 (db : Db) (item : MediaItem) (v : Fin 256)
    (hwf : Db.WF db) (hv : item.rating = some v) :
    ((SqliteRepo.get (SqliteRepo.add db item).1 (SqliteRepo.add db item).2.2).map
        MediaItem.rating = some (some v)) ∧
    (∀ r : Row, ∀ z : Int, r.rating = some z →
      (row_to_item r).rating = some (decodeRating z) ∧
      ((decodeRating z).val : Int) = z % 256) := by
  constructor
  · rw [get_after_add db item hwf]
    simp only [Option.map_some']
    congr 1
    show (encRating item.rating).map decodeRating = some v
    rw [decode_encRating, hv]
  · intro r z hz
    constructor
    · show r.rating.map decodeRating = some (decodeRating z)
      rw [hz]
      rfl
    · show (((z % 256).toNat : Nat) : Int) = z % 256
      omega

/-- C10 (witness): rating 7 round-trips through add/get, and the stored
out-of-range rating 300 decodes to 300 mod 256 = 44. -/
theorem rating_decode_mod256_witness :
    ((SqliteRepo.get (SqliteRepo.add dbEmpty itemWhole).1
        (SqliteRepo.add dbEmpty itemWhole).2.2).map
      MediaItem.rating = some (some 7)) ∧
    ((row_to_item rowOverflow).rating = some (decodeRating 300) ∧
      ((decodeRating 300).val : Int) = 300 % 256) := by
  have h := rating_decode_mod256 dbEmpty itemWhole 7
    (by intro r hr; simp [dbEmpty] at hr) rfl
  exact ⟨h.1, h.2 rowOverflow 300 rfl⟩

end MediaLib
